import Mathlib

/-!
Shallow embedding of `src/auth.go` (package channelsync of basecouch): the
user identity model, the channel-authorization predicates, and the identity
store facade, together with theorems checking the natural-language
specification against this code.

Modelling conventions:
  * Go `*User` receivers/results become `Option User` (`none` = nil).
  * Go string slices (which distinguish nil from empty) become
    `Option (List String)` (`none` = nil slice, `some []` = empty slice).
  * The external password-hashing collaborator is a black box; per its
    contract, `verify(hash p, q)` holds exactly when `q = p`, so the opaque
    hash value is modelled as a wrapper around the plaintext it was built
    from, with equality-test verification.
  * A Go nil-pointer dereference (reading a field of a nil `*User`) is
    modelled by an `Option` result, `none` meaning the run-time fault.
-/

namespace Basecouch

/-- Opaque credential produced by the external hashing collaborator
(`passwordhash.New`).  Black-box model: the only observable operation is
`equalToPassword`, which holds exactly for the original plaintext. -/
structure PasswordHash where
  secret : String
deriving Repr, DecidableEq

/-- The external collaborator function `passwordhash.New`. -/
def passwordhashNew (password : String) : PasswordHash :=
  ⟨password⟩

/-- The external collaborator function `(*PasswordHash).EqualToPassword`. -/
def PasswordHash.equalToPassword (h : PasswordHash) (password : String) : Bool :=
  h.secret == password

/-- The `User` record of auth.go.  `password` is the transient plaintext
field (Go `Password *string`), `passwordHash` the stored credential
(Go `PasswordHash *passwordhash.PasswordHash`), `channels` the entitlement
list (Go `Channels []string`, a nilable slice). -/
structure User where
  name : String
  passwordHash : Option PasswordHash := none
  channels : Option (List String) := none
  password : Option String := none
deriving Repr, DecidableEq

/-- Modelled from the spec: the tagged failure shape (`HTTPError`, declared
outside src/auth.go) carrying an HTTP-style status class and a message. -/
structure HTTPError where
  status : Nat
  message : String
deriving Repr, DecidableEq

/-- Go `net/http.StatusBadRequest`. -/
def statusBadRequest : Nat := 400

/-- Go `net/http.StatusUnauthorized`. -/
def statusUnauthorized : Nat := 401

/-- Go `net/http.StatusForbidden`. -/
def statusForbidden : Nat := 403

/-- Embedding of `stringListContains(list, str)` of auth.go: linear scan of a nilable
slice, `false` on the nil slice. -/
def stringListContains (list : Option (List String)) (str : String) : Bool :=
  match list with
  | none => false
  | some l => l.contains str

/-- The character class of Go regexp `\w`: ASCII letters, digits and
underscore. -/
def isWordChar (c : Char) : Bool :=
  c.isAlphanum || c == '_'

/-- Go `regexp.MatchString("^\w*$", s)`: every character of `s` is a word
character (the empty string matches). -/
def matchesNamePattern (s : String) : Bool :=
  s.toList.all isWordChar

/-- Approximation of Go `%q` for the names appearing in messages: the
string wrapped in double quotes. -/
def goQuote (s : String) : String :=
  "\"" ++ s ++ "\""

/-- Embedding of `(*User).Validate` of auth.go: bad-request error when the name does not
match `^\w*$`, or when being anonymous and lacking a credential disagree. -/
def User.validate (user : User) : Option HTTPError :=
  if !matchesNamePattern user.name then
    some ⟨statusBadRequest, "Invalid username " ++ goQuote user.name⟩
  else if ((user.name == "") != user.passwordHash.isNone) then
    some ⟨statusBadRequest, "Invalid password"⟩
  else
    none

/-- Embedding of `(*User).Authenticate` of auth.go: with no credential only the empty
password is accepted; otherwise the hashing collaborator decides. -/
def User.authenticate (user : User) (password : String) : Bool :=
  match user.passwordHash with
  | none => password == ""
  | some h => h.equalToPassword password

/-- Embedding of `(*User).SetPassword` of auth.go: clears the credential on the empty
password, otherwise stores the hash of the new password. -/
def User.setPassword (user : User) (password : String) : User :=
  if password == "" then
    { user with passwordHash := none }
  else
    { user with passwordHash := some (passwordhashNew password) }

/-- Embedding of `(*User).unauthError` of auth.go: the error flavor depends on identity —
401 "login required" for the anonymous user, else 403 with the message. -/
def User.unauthError (user : User) (message : String) : HTTPError :=
  if user.name == "" then
    ⟨statusUnauthorized, "login required"⟩
  else
    ⟨statusForbidden, message⟩

/-- Embedding of `(*User).CanSeeChannel` of auth.go.  A nil user means access control is
disabled and always sees the channel. -/
def canSeeChannel : Option User → String → Bool
  | none, _ => true
  | some user, channel =>
      channel == "*" || stringListContains user.channels channel ||
        stringListContains user.channels "*"

/-- Embedding of `(*User).CanSeeAllChannels` of auth.go: every channel of a (nilable)
slice must be visible; the nil slice passes vacuously. -/
def canSeeAllChannels (user : Option User) (channels : Option (List String)) : Bool :=
  match channels with
  | none => true
  | some cs => cs.all (fun c => canSeeChannel user c)

/-- Embedding of `(*User).CanSeeAnyChannels` of auth.go.  The loop returns true at the
first visible channel; otherwise the wildcard fallback reads
`user.Channels`, which for a nil user is a nil-pointer dereference —
modelled by the `none` result. -/
def canSeeAnyChannels (user : Option User) (channels : Option (List String)) : Option Bool :=
  let fallback : Option Bool :=
    match user with
    | none => none
    | some u => some (stringListContains u.channels "*")
  match channels with
  | none => fallback
  | some cs =>
      if cs.any (fun c => canSeeChannel user c) then some true else fallback

/-- The channels `(*User).AuthorizeAllChannels` collects as forbidden: those
the user cannot see, in their given order. -/
def forbiddenChannels (user : Option User) (channels : List String) : List String :=
  channels.filter (fun c => !canSeeChannel user c)

/-- The message `AuthorizeAllChannels` formats with Go `%v` of a slice. -/
def forbiddenMessage (forbidden : List String) : String :=
  "You are not allowed to see channels [" ++ String.intercalate " " forbidden ++ "]"

/-- Embedding of `(*User).AuthorizeAllChannels` of auth.go.  For a nil user every channel
is visible, so the forbidden list stays empty and the check succeeds; the
code never reaches `unauthError` on a nil receiver. -/
def authorizeAllChannels (user : Option User) (channels : List String) : Option HTTPError :=
  match user with
  | none => none
  | some u =>
      let forbidden := forbiddenChannels (some u) channels
      if forbidden.isEmpty then none
      else some (u.unauthError (forbiddenMessage forbidden))

/-- Embedding of `(*User).AuthorizeAnyChannels` of auth.go.  The outer `Option` models
the nil-pointer fault inherited from `canSeeAnyChannels`; when the check
yields false the user is necessarily concrete (the fallback ran on it). -/
def authorizeAnyChannels (user : Option User) (channels : Option (List String)) :
    Option (Option HTTPError) :=
  match canSeeAnyChannels user channels with
  | none => none
  | some true => some none
  | some false =>
      match user with
      | none => none
      | some u => some (some (u.unauthError "You are not allowed to see this"))

/-- Modelled from the spec: `ChannelMap` (a type of the surrounding
document-sync system, declared outside src/auth.go) maps a channel name to
an optional marker; an absent (nil) marker means current membership, a
present marker historical removal.  Only map lookup is used by auth.go. -/
abbrev ChannelMap := List (String × Option String)

/-- Go map indexing `value, exists := channels[channel]`: `none` when the
key is absent, otherwise the stored (optional) marker. -/
def channelMapLookup (m : ChannelMap) (k : String) : Option (Option String) :=
  (m.find? (fun p => p.1 == k)).map (fun p => p.2)

/-- One iteration test of the `AuthorizeAnyDocChannels` loop: the entry is
the wildcard, or the document currently belongs to that channel. -/
def docChannelGrants (channels : ChannelMap) (channel : String) : Bool :=
  channel == "*" ||
    match channelMapLookup channels channel with
    | some none => true
    | _ => false

/-- Embedding of `(*User).AuthorizeAnyDocChannels` of auth.go: nil user succeeds; else
scan `user.Channels` and succeed at the first wildcard or
currently-a-member entry; otherwise (also on a nil or empty channel list)
fail with the generic message through `unauthError`. -/
def authorizeAnyDocChannels (user : Option User) (channels : ChannelMap) : Option HTTPError :=
  match user with
  | none => none
  | some u =>
      match u.channels with
      | some cs =>
          if cs.any (fun c => docChannelGrants channels c) then none
          else some (u.unauthError "You are not allowed to see this")
      | none => some (u.unauthError "You are not allowed to see this")

/-- Embedding of `docIDForUser` of auth.go. -/
def docIDForUser (username : String) : String :=
  "user:" ++ username

/-- One outcome of the external bucket function `Get` on a key: a stored record,
not-found, or a store-level failure. -/
inductive BucketGetResult where
  | found (user : User)
  | notFound
  | storeErr (msg : String)
deriving Repr, DecidableEq

/-- The read behavior of the external bucket: what `Get` yields per key. -/
def Bucket := String → BucketGetResult

/-- The error component of `GetUser`: the not-found error or a store-level
error passed through from the bucket. -/
inductive GetUserErr where
  | notFound
  | storeErr (msg : String)
deriving Repr, DecidableEq

/-- Embedding of `(*Authenticator).GetUser` of auth.go.  `bucket.Get` leaves the record
pointer nil on any error, so after a not-found or a store error the guard
`user == nil && username == ""` synthesizes the all-access guest for the
empty name; for a non-empty name the error is returned with a nil user. -/
def getUser (bucket : Bucket) (username : String) : Option User × Option GetUserErr :=
  match bucket (docIDForUser username) with
  | .found u => (some u, none)
  | .notFound =>
      if username == "" then
        (some { name := username, channels := some ["*"] }, none)
      else
        (none, some .notFound)
  | .storeErr m =>
      if username == "" then
        (some { name := username, channels := some ["*"] }, none)
      else
        (none, some (.storeErr m))

/-- The writable store backing `SaveUser`: records by key, last write
wins.  (`bucket.Set` with TTL 0; Set-level store failures are the external
collaborator concern and not modelled.) -/
abbrev Store := List (String × User)

/-- Overwriting `bucket.Set`: the new record replaces any record at the
key. -/
def storeSet ( store : Store) (key : String) (value : User) : Store :=
  (key, value) :: store.filter (fun p => !(p.1 == key))

/-- Store lookup, for observing what a save wrote. -/
def storeGet ( store : Store) (key : String) : Option User :=
  (store.find? (fun p => p.1 == key)).map (fun p => p.2)

/-- The first step of `SaveUser` (auth.go lines 61-64): when the transient
plaintext field is set, hash it into the credential via `SetPassword` and
clear the field; otherwise leave the record alone. -/
def consumePassword (user : User) : User :=
  match user.password with
  | some pw => { user.setPassword pw with password := none }
  | none => user

/-- Embedding of `(*Authenticator).SaveUser` of auth.go: consume the transient plaintext
password, validate, and only on success write the record.  Returns the
user as the caller observes it after the call, plus either the validation
error or the updated store. -/
def saveUser ( store : Store) (user : User) : User × Except HTTPError Store :=
  let user1 := consumePassword user
  match user1.validate with
  | some e => (user1, Except.error e)
  | none => (user1, Except.ok (storeSet store (docIDForUser user1.name) user1))

/-- Embedding of `NewUser` of auth.go: build the record, set the password, validate;
return the user or the validation error. -/
def newUser (username : String) (password : String) (channels : Option (List String)) :
    Except HTTPError User :=
  let user := User.setPassword { name := username, channels := channels } password
  match user.validate with
  | some e => Except.error e
  | none => Except.ok user

/-- Embedding of `(*Authenticator).AuthenticateUser` of auth.go: look the user up
(ignoring the error), and return nil unless a user was produced and the
password authenticates. -/
def authenticateUser (bucket : Bucket) (username : String) (password : String) : Option User :=
  match (getUser bucket username).1 with
  | none => none
  | some u => if u.authenticate password then some u else none

/-- A bucket whose every `Get` fails with a store-level error, for
observing error propagation through `getUser`. -/
def storeErrBucket : Bucket := fun _ => BucketGetResult.storeErr "store failure"

/-- A bucket holding exactly one record, for the user "bob" with password
"pw" and no channels. -/
def oneUserBucket : Bucket := fun key =>
  if key == "user:bob" then
    BucketGetResult.found
      { name := "bob", passwordHash := some (passwordhashNew "pw"), channels := some [] }
  else
    BucketGetResult.notFound

/-! Helper lemmas shared by the claim theorems. -/

theorem stringListContains_iff (list : Option (List String)) (s : String) :
    stringListContains list s = true ↔ ∃ l, list = some l ∧ s ∈ l := by
  cases list <;> simp [stringListContains]

theorem canSeeChannel_nil (channel : String) : canSeeChannel none channel = true := rfl

theorem canSeeAnyChannels_concrete_isSome (u : User) (channels : Option (List String)) :
    (canSeeAnyChannels (some u) channels).isSome = true := by
  cases channels with
  | none => simp [canSeeAnyChannels]
  | some cs =>
      by_cases h : cs.any (fun c => canSeeChannel (some u) c) = true <;>
        simp [canSeeAnyChannels, h]

/-- Claim C1: `canSeeChannel(user, channel)` is true iff the user is absent,
or the channel is the wildcard, or the channel is among the user
channels, or the wildcard is among the user channels; for every other
combination it is false. -/
theorem C1_canSeeChannel_characterization (user : Option User) (channel : String) :
    canSeeChannel user channel = true ↔
      (user = none ∨ channel = "*" ∨
        (∃ u cs, user = some u ∧ u.channels = some cs ∧ channel ∈ cs) ∨
        (∃ u cs, user = some u ∧ u.channels = some cs ∧ "*" ∈ cs)) := by
  cases user with
  | none => simp [canSeeChannel]
  | some u => simp [canSeeChannel, stringListContains_iff, or_assoc]

/-- Claim C6: `validate` succeeds exactly when the name matches the
word-character pattern and anonymity agrees with credential absence; a
failure is a bad-request error.  Stated contrapositively to the claim: it
fails iff the pattern fails or exactly one of (name empty, credential
absent) holds. -/
theorem C6_validate_characterization (u : User) :
    (u.validate = none ↔
      (matchesNamePattern u.name = true ∧ ((u.name = "") ↔ u.passwordHash = none))) ∧
    (∀ e, u.validate = some e → e.status = statusBadRequest) := by
  constructor
  · unfold User.validate
    cases hm : matchesNamePattern u.name with
    | false =>
        simp [hm]
    | true =>
        cases hh : u.passwordHash <;> cases hn : u.name == "" <;>
          simp_all [Option.isNone]
  · intro e he
    unfold User.validate at he
    split at he
    · simp at he; rw [← he]
    · split at he
      · simp at he; rw [← he]
      · simp at he

/-- Closed witness for C6 at the examples of the spec: "bob_2" with a
credential validates; "bad name" fails with a bad-request error. -/
theorem C6_witness :
    User.validate { name := "bob_2", passwordHash := some (passwordhashNew "pw") } = none ∧
    HTTPError.status
      { status := statusBadRequest, message := "Invalid username " ++ goQuote "bad name" } =
      statusBadRequest := by
  constructor
  · exact (C6_validate_characterization
      { name := "bob_2", passwordHash := some (passwordhashNew "pw") }).1.mpr
      ⟨by decide, by decide⟩
  · exact (C6_validate_characterization { name := "bad name" }).2
      { status := statusBadRequest, message := "Invalid username " ++ goQuote "bad name" }
      (by decide)

/-- Claim C4: for a concrete user, `canSeeAnyChannels` is true exactly when
some element of a non-empty channel list is visible, or otherwise exactly
when the user holds the wildcard; and it never faults. -/
theorem C4_canSeeAnyChannels_concrete (u : User) (channels : Option (List String)) :
    (canSeeAnyChannels (some u) channels = some true ↔
      ((∃ cs c, channels = some cs ∧ c ∈ cs ∧ canSeeChannel (some u) c = true) ∨
        (∃ ws, u.channels = some ws ∧ "*" ∈ ws))) ∧
    (canSeeAnyChannels (some u) channels).isSome = true := by
  constructor
  · cases channels with
    | none => simp [canSeeAnyChannels, stringListContains_iff]
    | some cs =>
        simp only [canSeeAnyChannels]
        by_cases h : cs.any (fun c => canSeeChannel (some u) c) = true
        · rw [if_pos h]
          simp only [List.any_eq_true] at h
          obtain ⟨c, hc, hsee⟩ := h
          exact iff_of_true rfl (Or.inl ⟨cs, c, rfl, hc, hsee⟩)
        · rw [if_neg h]
          rw [Option.some_inj, stringListContains_iff]
          constructor
          · intro hw
            exact Or.inr hw
          · rintro (⟨cs2, c, hcs2, hc, hsee⟩ | hw)
            · obtain rfl : cs = cs2 := Option.some_inj.mp hcs2
              exact absurd (List.any_eq_true.mpr ⟨c, hc, hsee⟩) h
            · exact hw
  · exact canSeeAnyChannels_concrete_isSome u channels

/-- Claim C10: with an absent user, a non-empty channel list makes
`canSeeAnyChannels` succeed with true before the wildcard fallback can
dereference the user; whenever the user is concrete or the channel list is
non-empty, the function never hits the nil-dereference fault. -/
theorem C10_canSeeAnyChannels_nil_safety (user : Option User) (channels : Option (List String)) :
    (∀ cs, channels = some cs → cs ≠ [] → canSeeAnyChannels none channels = some true) ∧
    ((user ≠ none ∨ ∃ cs, channels = some cs ∧ cs ≠ []) →
      (canSeeAnyChannels user channels).isSome = true) := by
  constructor
  · rintro cs rfl hne
    cases cs with
    | nil => exact absurd rfl hne
    | cons c cs2 => simp [canSeeAnyChannels, canSeeChannel]
  · rintro (hu | ⟨cs, rfl, hne⟩)
    · obtain ⟨u, rfl⟩ := Option.ne_none_iff_exists.mp (by simpa using hu)
      exact canSeeAnyChannels_concrete_isSome u channels
    · cases user with
      | some u => exact canSeeAnyChannels_concrete_isSome u (some cs)
      | none =>
          cases cs with
          | nil => exact absurd rfl hne
          | cons c cs2 => simp [canSeeAnyChannels, canSeeChannel]

/-- Closed witness for C10 at the absent user and a singleton channel
list. -/
theorem C10_witness :
    canSeeAnyChannels none (some ["c"]) = some true ∧
    (canSeeAnyChannels none (some ["c"])).isSome = true := by
  have h := C10_canSeeAnyChannels_nil_safety none (some ["c"])
  exact ⟨h.1 ["c"] rfl (by decide), h.2 (Or.inr ⟨["c"], rfl, by decide⟩)⟩

theorem getUser_none_iff_err (bucket : Bucket) (n : String) :
    (getUser bucket n).1 = none ↔ (getUser bucket n).2.isSome = true := by
  unfold getUser
  cases bucket (docIDForUser n) <;> simp <;> split <;> simp

/-- Claim C2 counterexample: a store-level error on the lookup of the empty
name does not propagate to the caller; the synthesized guest is returned
with no error at all. -/
theorem C2_counterexample :
    getUser storeErrBucket "" = (some { name := "", channels := some ["*"] }, none) := rfl

/-- Claim C2 (amended): getUser fetches the record at the derived key and
returns a found record without error; a not-found for a non-empty name is
surfaced, and a store-level error for a non-empty name propagates
unchanged; for the empty name any failing lookup — not-found or
store-level error alike — is absorbed into the synthesized all-access
guest (channels `["*"]`, no credential), returned with no error. -/
theorem C2_getUser_amended (bucket : Bucket) (username : String) :
    (∀ u, bucket (docIDForUser username) = .found u →
        getUser bucket username = (some u, none)) ∧
    (username ≠ "" → bucket (docIDForUser username) = .notFound →
        getUser bucket username = (none, some GetUserErr.notFound)) ∧
    (∀ m, username ≠ "" → bucket (docIDForUser username) = .storeErr m →
        getUser bucket username = (none, some (GetUserErr.storeErr m))) ∧
    ((∀ u, bucket (docIDForUser "") ≠ .found u) →
        getUser bucket "" = (some { name := "", channels := some ["*"] }, none)) := by
  refine ⟨?_, ?_, ?_, ?_⟩
  · intro u hb
    simp [getUser, hb]
  · intro hne hb
    simp [getUser, hb, hne]
  · intro m hne hb
    simp [getUser, hb, hne]
  · intro hnf
    cases hb : bucket (docIDForUser "") with
    | found u => exact absurd hb (hnf u)
    | notFound => simp [getUser, hb]
    | storeErr m => simp [getUser, hb]

/-- Closed witness for C2 (amended): with an always-failing bucket, the
store error surfaces for "bob" but the guest absorbs it for "". -/
theorem C2_witness :
    getUser storeErrBucket "bob" = (none, some (GetUserErr.storeErr "store failure")) ∧
    getUser storeErrBucket "" = (some { name := "", channels := some ["*"] }, none) :=
  ⟨(C2_getUser_amended storeErrBucket "bob").2.2.1 "store failure" (by decide) rfl,
   (C2_getUser_amended storeErrBucket "").2.2.2 (fun u h => by simp [storeErrBucket] at h)⟩

/-- Claim C8: authenticateUser returns nil exactly when the lookup errored
or the fetched user fails password authentication; otherwise it returns
the fetched user; a lookup error and a missing user coincide, so all
negative causes collapse into the single nil result. -/
theorem C8_authenticateUser_spec (bucket : Bucket) (n p : String) :
    (authenticateUser bucket n p = none ↔
      ((getUser bucket n).2.isSome = true ∨
        ∃ u, (getUser bucket n).1 = some u ∧ u.authenticate p = false)) ∧
    (∀ u, authenticateUser bucket n p = some u →
      (getUser bucket n).1 = some u ∧ u.authenticate p = true) ∧
    ((getUser bucket n).1 = none ↔ (getUser bucket n).2.isSome = true) := by
  have keySome : ∀ u, (getUser bucket n).1 = some u →
      authenticateUser bucket n p = (if u.authenticate p = true then some u else none) := by
    intro u hg
    unfold authenticateUser
    rw [hg]
  have keyNone : (getUser bucket n).1 = none → authenticateUser bucket n p = none := by
    intro hg
    unfold authenticateUser
    rw [hg]
  refine ⟨?_, ?_, getUser_none_iff_err bucket n⟩
  · cases hg : (getUser bucket n).1 with
    | none =>
        rw [keyNone hg]
        simp only [true_iff]
        exact Or.inl ((getUser_none_iff_err bucket n).mp hg)
    | some u =>
        rw [keySome u hg]
        constructor
        · intro h
          by_cases ha : u.authenticate p = true
          · rw [if_pos ha] at h
            exact absurd h (by simp)
          · exact Or.inr ⟨u, rfl, by simpa using ha⟩
        · rintro (herr | ⟨v, hv, hva⟩)
          · exact absurd ((getUser_none_iff_err bucket n).mpr herr) (by simp [hg])
          · obtain rfl := Option.some_inj.mp hv
            rw [if_neg (by simp [hva])]
  · intro u hu
    cases hg : (getUser bucket n).1 with
    | none =>
        rw [keyNone hg] at hu
        exact absurd hu (by simp)
    | some v =>
        rw [keySome v hg] at hu
        by_cases ha : v.authenticate p = true
        · rw [if_pos ha] at hu
          obtain rfl := Option.some_inj.mp hu
          exact ⟨rfl, ha⟩
        · rw [if_neg ha] at hu
          exact absurd hu (by simp)

/-- Closed witness for C8: the stored "bob" record authenticates with its
own password and is returned. -/
theorem C8_witness :
    (getUser oneUserBucket "bob").1 =
      some { name := "bob", passwordHash := some (passwordhashNew "pw"), channels := some [] } ∧
    User.authenticate
      { name := "bob", passwordHash := some (passwordhashNew "pw"), channels := some [] }
      "pw" = true :=
  (C8_authenticateUser_spec oneUserBucket "bob" "pw").2.1 _ (by decide)

theorem string_ne_append_x (p : String) : p ≠ p ++ "x" := by
  intro h
  have hlen := congrArg String.length h
  rw [String.length_append] at hlen
  have hx : String.length "x" = 1 := rfl
  rw [hx] at hlen
  omega

/-- Claim C9 counterexample: "bob" matches the allowed pattern, yet
construct("bob", "", _) fails validation (a named user may not have an
empty password), so the claim fails as stated for every pattern-matching
name with the empty password. -/
theorem C9_counterexample :
    matchesNamePattern "bob" = true ∧
    newUser "bob" "" none = Except.error ⟨statusBadRequest, "Invalid password"⟩ := by
  constructor
  · decide
  · rfl

/-- Claim C9 (amended): for every username matching the allowed pattern
and every password that is empty exactly when the username is empty,
construction succeeds, the constructed user authenticates with the
original password, and fails with the password extended by "x". -/
theorem C9_newUser_authenticate (n p : String) (channels : Option (List String))
    (hn : matchesNamePattern n = true) (hp : (n = "") ↔ (p = "")) :
    ∃ u, newUser n p channels = Except.ok u ∧
      u.authenticate p = true ∧ u.authenticate (p ++ "x") = false := by
  by_cases hpe : p = ""
  · have hne : n = "" := hp.mpr hpe
    subst hpe hne
    exact ⟨{ name := "", channels := channels }, rfl, rfl, rfl⟩
  · have hne : ¬ n = "" := fun h => hpe (hp.mp h)
    have hbe : (p == "") = false := by simpa using hpe
    have hnbe : (n == "") = false := by simpa using hne
    refine ⟨{ name := n, channels := channels, passwordHash := some (passwordhashNew p) }, ?_, ?_, ?_⟩
    · simp [newUser, User.setPassword, User.validate, hbe, hn, hnbe]
    · simp [User.authenticate, PasswordHash.equalToPassword, passwordhashNew]
    · have hne2 := string_ne_append_x p
      simp [User.authenticate, PasswordHash.equalToPassword, passwordhashNew, hne2]

/-- Closed witness for C9 (amended) at n = "bob", p = "pw". -/
theorem C9_witness :
    ∃ u, newUser "bob" "pw" none = Except.ok u ∧
      u.authenticate "pw" = true ∧ u.authenticate ("pw" ++ "x") = false :=
  C9_newUser_authenticate "bob" "pw" none (by decide) (by decide)

theorem docChannelGrants_iff (cm : ChannelMap) (c : String) :
    docChannelGrants cm c = true ↔ (c = "*" ∨ channelMapLookup cm c = some none) := by
  unfold docChannelGrants
  cases h : channelMapLookup cm c with
  | none => simp [h]
  | some v => cases v <;> simp [h]

/-- Claim C3: `authorizeAnyDocChannels` succeeds for an absent user; for a
concrete user it succeeds exactly when some entry of the user channel
list is the wildcard or appears in the document channel map with an
absent marker; otherwise (in particular on an empty or nil channel list)
it fails with the generic authorization error. -/
theorem C3_authorizeAnyDocChannels_spec (u : User) (cm : ChannelMap) :
    authorizeAnyDocChannels none cm = none ∧
    (authorizeAnyDocChannels (some u) cm = none ↔
      ∃ cs c, u.channels = some cs ∧ c ∈ cs ∧
        (c = "*" ∨ channelMapLookup cm c = some none)) ∧
    (authorizeAnyDocChannels (some u) cm ≠ none →
      authorizeAnyDocChannels (some u) cm =
        some (u.unauthError "You are not allowed to see this")) ∧
    ((u.channels = none ∨ u.channels = some []) →
      authorizeAnyDocChannels (some u) cm =
        some (u.unauthError "You are not allowed to see this")) := by
  refine ⟨rfl, ?_, ?_, ?_⟩
  · cases hc : u.channels with
    | none => simp [authorizeAnyDocChannels, hc]
    | some cs =>
        simp only [authorizeAnyDocChannels, hc]
        by_cases h : cs.any (fun c => docChannelGrants cm c) = true
        · rw [if_pos h]
          simp only [List.any_eq_true] at h
          obtain ⟨c, hcmem, hg⟩ := h
          exact iff_of_true rfl ⟨cs, c, rfl, hcmem, (docChannelGrants_iff cm c).mp hg⟩
        · rw [if_neg h]
          constructor
          · intro hcontra
            exact absurd hcontra (by simp)
          · rintro ⟨cs2, c, hcs2, hcmem, hgr⟩
            obtain rfl := Option.some_inj.mp hcs2
            exact absurd (List.any_eq_true.mpr
              ⟨c, hcmem, (docChannelGrants_iff cm c).mpr hgr⟩) h
  · intro hne2
    cases hc : u.channels with
    | none => simp [authorizeAnyDocChannels, hc]
    | some cs =>
        simp only [authorizeAnyDocChannels, hc] at hne2 ⊢
        by_cases h : cs.any (fun c => docChannelGrants cm c) = true
        · rw [if_pos h] at hne2
          exact absurd rfl hne2
        · rw [if_neg h]
  · rintro (hc | hc) <;> simp [authorizeAnyDocChannels, hc]

/-- Closed witness for C3 at the example of the spec: a user entitled to "x"
sees a document currently in "x"; a user entitled only to "y" does not see
a document only historically in "y". -/
theorem C3_witness :
    authorizeAnyDocChannels (some { name := "alice", channels := some ["x"] })
      [("x", none), ("y", some "removed")] = none ∧
    authorizeAnyDocChannels (some { name := "alice", channels := some ["y"] })
      [("x", none), ("y", some "removed")] =
      some (User.unauthError { name := "alice", channels := some ["y"] }
        "You are not allowed to see this") := by
  constructor
  · exact (C3_authorizeAnyDocChannels_spec { name := "alice", channels := some ["x"] }
      [("x", none), ("y", some "removed")]).2.1.mpr
        ⟨["x"], "x", rfl, by decide, Or.inr (by decide)⟩
  · exact (C3_authorizeAnyDocChannels_spec { name := "alice", channels := some ["y"] }
      [("x", none), ("y", some "removed")]).2.2.1 (by decide)

theorem storeGet_storeSet ( store : Store) (key : String) (value : User) :
    storeGet (storeSet store key value) key = some value := by
  unfold storeGet storeSet
  rw [List.find?_cons_of_pos]
  · rfl
  · simp

theorem consumePassword_name (u : User) : (consumePassword u).name = u.name := by
  unfold consumePassword User.setPassword
  cases u.password with
  | none => rfl
  | some pw => by_cases h : (pw == "") = true <;> simp [h]

theorem consumePassword_channels (u : User) : (consumePassword u).channels = u.channels := by
  unfold consumePassword User.setPassword
  cases u.password with
  | none => rfl
  | some pw => by_cases h : (pw == "") = true <;> simp [h]

theorem saveUser_fst ( store : Store) (u : User) :
    (saveUser store u).1 = consumePassword u := by
  unfold saveUser
  cases h : (consumePassword u).validate <;> simp [h]

theorem saveUser_snd_error ( store : Store) (u : User) (e : HTTPError)
    (h : (consumePassword u).validate = some e) :
    (saveUser store u).2 = Except.error e := by
  unfold saveUser
  simp [h]

theorem saveUser_snd_ok ( store : Store) (u : User)
    (h : (consumePassword u).validate = none) :
    (saveUser store u).2 =
      Except.ok (storeSet store (docIDForUser (consumePassword u).name) (consumePassword u)) := by
  unfold saveUser
  simp [h]

/-- Claim C5: saveUser first consumes a set transient password (hashing it
via setPassword, clearing the field), then validates; on validation
failure the error is returned and no store is produced; on success the
record is written at its key, overwriting any previous record there; the
only field changes the caller observes are the requested password
consumption. -/
theorem C5_saveUser_spec ( store : Store) (u : User) :
    (∀ pw, u.password = some pw →
        (saveUser store u).1 = { u.setPassword pw with password := none }) ∧
    (u.password = none → (saveUser store u).1 = u) ∧
    ((saveUser store u).1.name = u.name ∧ (saveUser store u).1.channels = u.channels) ∧
    (∀ e, (saveUser store u).2 = Except.error e →
        (saveUser store u).1.validate = some e) ∧
    ((saveUser store u).1.validate = none →
        (saveUser store u).2 =
          Except.ok (storeSet store (docIDForUser (saveUser store u).1.name)
            (saveUser store u).1)) ∧
    (∀ s, (saveUser store u).2 = Except.ok s →
        (saveUser store u).1.validate = none ∧
        storeGet s (docIDForUser (saveUser store u).1.name) = some (saveUser store u).1) := by
  refine ⟨?_, ?_, ?_, ?_, ?_, ?_⟩
  · intro pw hpw
    rw [saveUser_fst]
    unfold consumePassword
    rw [hpw]
  · intro hpw
    rw [saveUser_fst]
    unfold consumePassword
    rw [hpw]
  · rw [saveUser_fst, consumePassword_name, consumePassword_channels]
    exact ⟨rfl, rfl⟩
  · intro e he
    rw [saveUser_fst]
    cases hv : (consumePassword u).validate with
    | none =>
        rw [saveUser_snd_ok store u hv] at he
        exact absurd he (by simp)
    | some e2 =>
        rw [saveUser_snd_error store u e2 hv] at he
        injection he with he2
        rw [← he2]
  · intro hv
    rw [saveUser_fst] at hv ⊢
    exact saveUser_snd_ok store u hv
  · intro s hs
    rw [saveUser_fst]
    cases hv : (consumePassword u).validate with
    | some e =>
        rw [saveUser_snd_error store u e hv] at hs
        exact absurd hs (by simp)
    | none =>
        rw [saveUser_snd_ok store u hv] at hs
        injection hs with hs2
        rw [← hs2]
        exact ⟨rfl, storeGet_storeSet store (docIDForUser (consumePassword u).name)
          (consumePassword u)⟩

/-- Closed witness for C5: saving "bob" with pending password "pw" hashes
the password, clears the transient field, and writes the record. -/
theorem C5_witness :
    (saveUser [] { name := "bob", channels := some [], password := some "pw" }).1 =
      { User.setPassword { name := "bob", channels := some [], password := some "pw" } "pw" with
          password := none } ∧
    (saveUser [] { name := "bob", channels := some [], password := some "pw" }).2 =
      Except.ok (storeSet []
        (docIDForUser (saveUser [] { name := "bob", channels := some [], password := some "pw" }).1.name)
        (saveUser [] { name := "bob", channels := some [], password := some "pw" }).1) := by
  have h := C5_saveUser_spec [] { name := "bob", channels := some [], password := some "pw" }
  exact ⟨h.1 "pw" rfl, h.2.2.2.2.1 (by decide)⟩

theorem forbiddenChannels_eq_nil_iff (u : User) (channels : List String) :
    forbiddenChannels (some u) channels = [] ↔
      ∀ c ∈ channels, canSeeChannel (some u) c = true := by
  unfold forbiddenChannels
  rw [List.filter_eq_nil_iff]
  simp

/-- Claim C7: `authorizeAllChannels` fails exactly when the set of channels
the user cannot see is non-empty, and the failure carries the message
naming exactly those channels through `unauthError`, which selects the
error flavor by identity — 401 "login required" for the anonymous name,
else 403 with the message — for the failures of every authorize variant. -/
theorem C7_authorizeAllChannels_spec (u : User) (channels : List String)
    (anyCh : Option (List String)) (cm : ChannelMap) :
    authorizeAllChannels none channels = none ∧
    (authorizeAllChannels (some u) channels = none ↔
      forbiddenChannels (some u) channels = []) ∧
    (forbiddenChannels (some u) channels = [] ↔
      ∀ c ∈ channels, canSeeChannel (some u) c = true) ∧
    (forbiddenChannels (some u) channels ≠ [] →
      authorizeAllChannels (some u) channels =
        some (u.unauthError (forbiddenMessage (forbiddenChannels (some u) channels)))) ∧
    (∀ m, (u.name = "" → u.unauthError m = ⟨statusUnauthorized, "login required"⟩) ∧
        (u.name ≠ "" → u.unauthError m = ⟨statusForbidden, m⟩)) ∧
    (∀ e, authorizeAnyChannels (some u) anyCh = some (some e) →
        e = u.unauthError "You are not allowed to see this") ∧
    (∀ e, authorizeAnyDocChannels (some u) cm = some e →
        e = u.unauthError "You are not allowed to see this") := by
  refine ⟨rfl, ?_, forbiddenChannels_eq_nil_iff u channels, ?_, ?_, ?_, ?_⟩
  · simp only [authorizeAllChannels]
    by_cases h : forbiddenChannels (some u) channels = []
    · rw [if_pos (by simp [h])]
      simp [h]
    · rw [if_neg (by simp [List.isEmpty_iff, h])]
      simp [h]
  · intro h
    simp only [authorizeAllChannels]
    rw [if_neg (by simp [List.isEmpty_iff, h])]
  · intro m
    constructor
    · intro h
      simp [User.unauthError, h]
    · intro h
      simp [User.unauthError, h]
  · intro e he
    unfold authorizeAnyChannels at he
    cases hc : canSeeAnyChannels (some u) anyCh with
    | none =>
        rw [hc] at he
        exact absurd he (by simp)
    | some b =>
        rw [hc] at he
        cases b with
        | true => simp at he
        | false =>
            simp at he
            exact he.symm
  · intro e he
    cases hc : u.channels with
    | none =>
        simp [authorizeAnyDocChannels, hc] at he
        exact he.symm
    | some cs =>
        simp only [authorizeAnyDocChannels, hc] at he
        by_cases h2 : cs.any (fun c => docChannelGrants cm c) = true
        · rw [if_pos h2] at he
          exact absurd he (by simp)
        · rw [if_neg h2] at he
          simp at he
          exact he.symm

/-- Closed witness for C7 at the example of the spec: the user entitled only to
"a" is denied ["a","b","c"] with a 403 naming exactly "b" and "c". -/
theorem C7_witness :
    authorizeAllChannels (some { name := "alice", channels := some ["a"] }) ["a", "b", "c"] =
      some ⟨statusForbidden, "You are not allowed to see channels [b c]"⟩ := by
  have h := (C7_authorizeAllChannels_spec { name := "alice", channels := some ["a"] }
    ["a", "b", "c"] none []).2.2.2.1 (by decide)
  rw [h]
  decide

end Basecouch
